import Mathlib

/-
Shallow embedding of the change-detection and notification engine of
`main.py` (a Telegram URL-monitor bot).

Modelling conventions:
- Python dicts persisted as JSON files are modelled as insertion-ordered
  association lists `List (String × String)` (`SMap`), with `getv` for
  `d.get(k)` and `setk` for `d[k] = v` (replace in place, else append).
- The persisted file on disk is a `FileState`: `missing` (no file),
  `corrupt` (present but not valid JSON, e.g. truncated or partial), or
  `valid data`.
- External collaborators are parameters collected in `Env`:
  `hash` models `hashlib.sha256(text.encode()).hexdigest()`,
  `fetch` models `fetch_page_data` (which catches every exception and
  returns `(None, None)`, here `none`; a successful fetch returns the
  rendered body text and the full HTML),
  `diffFn` models `"\n".join(difflib.unified_diff(old.splitlines(),
  new.splitlines(), lineterm=""))` as an opaque function of the two raw
  snapshot strings,
  `sendOk` tells, per `(label, url)` notification, whether the
  `context.bot.send_message` call succeeds (`false` = it raises).
- `check_all_urls` has no `try`/`except` of its own, so an exception from
  `send_message` propagates out of the sweep loop: the remaining targets
  are not processed and the final `save_json` calls never run. This is
  the `SweepResult.err` constructor.
-/

namespace UrlMonitor

/-- Insertion-ordered string-to-string map, modelling a Python dict loaded
from a JSON file. -/
abbrev SMap := List (String × String)

/-- Python `d.get(k)`: first binding of `k`, if any. -/
def getv : SMap → String → Option String
  | [], _ => none
  | (k', v) :: rest, k => if k' = k then some v else getv rest k

/-- Python `d[k] = v`: replace the existing binding in place, else append. -/
def setk : SMap → String → String → SMap
  | [], k, v => [(k, v)]
  | (k', v') :: rest, k, v =>
      if k' = k then (k, v) :: rest else (k', v') :: setk rest k v

/-- State of one persisted JSON file on disk. -/
inductive FileState where
  | missing
  | corrupt
  | valid (data : SMap)
  deriving DecidableEq

/-- Embedding of `load_json` (main.py lines 25-32). Returns the loaded
mapping together with the list of messages the call prints. A missing file
yields `{}`; a present but unparsable file hits the bare `except` and also
yields `{}`. The function body contains no `print`, so the message list is
always empty. -/
def load_json : FileState → SMap × List String
  | .missing => ([], [])
  | .corrupt => ([], [])
  | .valid d => (d, [])

/-- Embedding of a completed `save_json` (main.py lines 34-36): the file
afterwards holds exactly `data`. -/
def save_json (data : SMap) : FileState := .valid data

/-- Durable content of the target file if the process crashes while
`save_json` runs. `save_json` is `open(filename, "w")` (which truncates
the file in place) followed by `json.dump(data, f)`. Crash point 0 is
before the `open` (old content intact); crash point 1 is after the
truncating `open` but before the dump completes (the file holds empty or
partial JSON, i.e. is corrupt); from point 2 on the dump has completed. -/
def save_json_crash (oldFile : FileState) (data : SMap) : Nat → FileState
  | 0 => oldFile
  | 1 => .corrupt
  | _ + 2 => .valid data

/-- External collaborators of the engine, as seen by one sweep. -/
structure Env where
  hash : String → String
  fetch : String → Option (String × String)
  diffFn : String → String → String
  sendOk : String → String → Bool

/-- Outcome of a sweep loop that ran to completion: final in-memory hash
and snapshot dicts, the notifications sent (as `(label, url)` pairs, the
two values that determine the message text), and the diff artifacts
written (as `(label, diff_text)` pairs). -/
structure SweepOk where
  hashes : SMap
  htmls : SMap
  sent : List (String × String)
  diffs : List (String × String)
  deriving DecidableEq

/-- Result of the `for label, url in urls.items()` loop of
`check_all_urls`: either it completes, or an uncaught exception from
`send_message` aborts it, carrying the notifications and diff artifacts
produced before the abort. -/
inductive SweepResult where
  | ok (r : SweepOk)
  | err (sent : List (String × String)) (diffs : List (String × String))
  deriving DecidableEq

/-- Embedding of the loop body of `check_all_urls` (main.py lines 71-105),
processing the targets in order with accumulators for the two dicts, the
sent notifications and the written diff artifacts. Per target: a failed
fetch or falsy (`""`) text/html is skipped with `continue`; otherwise
`hashes[label] = new_hash` runs unconditionally, and when
`new_hash != old_hash` (also when `old_hash` is `None`) the diff text is
computed from `htmls.get(label, "")`, the snapshot is stored, the
notification is sent — if sending raises, the exception propagates and
the loop aborts — and the diff artifact is written. -/
def sweepLoop (env : Env) :
    List (String × String) → SMap → SMap →
    List (String × String) → List (String × String) → SweepResult
  | [], hashes, htmls, sent, diffs => .ok ⟨hashes, htmls, sent, diffs⟩
  | (label, url) :: rest, hashes, htmls, sent, diffs =>
    match env.fetch url with
    | none => sweepLoop env rest hashes htmls sent diffs
    | some (text, html) =>
      if text = "" ∨ html = "" then
        sweepLoop env rest hashes htmls sent diffs
      else
        let newHash := env.hash text
        let oldHash := getv hashes label
        let hashes' := setk hashes label newHash
        if some newHash ≠ oldHash then
          let oldHtml := (getv htmls label).getD ""
          let dtext := env.diffFn oldHtml html
          let htmls' := setk htmls label html
          if env.sendOk label url then
            sweepLoop env rest hashes' htmls'
              (sent ++ [(label, url)]) (diffs ++ [(label, dtext)])
          else
            .err sent diffs
        else
          sweepLoop env rest hashes' htmls sent diffs

/-- Observable outcome of one `check_all_urls` call: the durable hash and
snapshot files afterwards, the notifications sent, and whether the call
completed (`false` = an exception escaped before the `save_json` calls). -/
structure CheckOut where
  hashFile : FileState
  htmlFile : FileState
  sent : List (String × String)
  completed : Bool
  deriving DecidableEq

/-- Embedding of `check_all_urls` (main.py lines 66-110): load the three
JSON files, run the sweep loop, and — only if no exception escaped — save
the updated hash and snapshot dicts back to disk. On an uncaught
notifier exception the files keep their previous content. -/
def check_all_urls (env : Env)
    (dataFile hashFile htmlFile : FileState) : CheckOut :=
  let urls := (load_json dataFile).1
  let hashes := (load_json hashFile).1
  let htmls := (load_json htmlFile).1
  match sweepLoop env urls hashes htmls [] [] with
  | .ok r => ⟨save_json r.hashes, save_json r.htmls, r.sent, true⟩
  | .err sent _ => ⟨hashFile, htmlFile, sent, false⟩

/-- Result reported back to the user by the `/add` command handler. -/
inductive AddResult where
  | usage
  | duplicate
  | fetchFailed
  | ok
  deriving DecidableEq

/-- Observable outcome of one `add` call: the reply category and the three
durable files afterwards. -/
structure AddOut where
  result : AddResult
  dataFile : FileState
  hashFile : FileState
  htmlFile : FileState
  deriving DecidableEq

/-- Embedding of the `add` command handler (main.py lines 123-150): with
fewer than two arguments reply with usage; if the label is already in the
registry reply "Label already exists." and change nothing; if the fetch
fails or returns falsy html reply "Couldn't fetch page." and change
nothing; otherwise register the target, store the baseline fingerprint
and snapshot, and save all three files. No notification is ever sent. -/
def add (env : Env) (args : List String)
    (dataFile hashFile htmlFile : FileState) : AddOut :=
  match args with
  | label :: url :: _ =>
    let urls := (load_json dataFile).1
    if (getv urls label).isSome then
      ⟨.duplicate, dataFile, hashFile, htmlFile⟩
    else
      match env.fetch url with
      | none => ⟨.fetchFailed, dataFile, hashFile, htmlFile⟩
      | some (text, html) =>
        if html = "" then
          ⟨.fetchFailed, dataFile, hashFile, htmlFile⟩
        else
          let urls' := setk urls label url
          let hashes' := setk (load_json hashFile).1 label (env.hash text)
          let htmls' := setk (load_json htmlFile).1 label html
          ⟨.ok, save_json urls', save_json hashes', save_json htmls'⟩
  | _ => ⟨.usage, dataFile, hashFile, htmlFile⟩

/-! Concrete collaborator instances, used to evaluate the engine on
explicit inputs. The hash parameter is instantiated with the injective
tagging function `fun t => "#" ++ t`, the diff parameter with the
concatenation `fun o n => o ++ "|" ++ n`; only equality of hash values and
the arguments handed to the diff function matter to the engine. -/

/-- Collaborators for a fetch that always yields body text "A" and HTML
"HA", with a notifier that always succeeds. -/
def envBaseline : Env where
  hash := fun t => "#" ++ t
  fetch := fun _ => some ("A", "HA")
  diffFn := fun o n => o ++ "|" ++ n
  sendOk := fun _ _ => true

/-- Collaborators for a fetch that always yields body text "B" and HTML
"HB", with a notifier that always succeeds. -/
def envChange : Env where
  hash := fun t => "#" ++ t
  fetch := fun _ => some ("B", "HB")
  diffFn := fun o n => o ++ "|" ++ n
  sendOk := fun _ _ => true

/-- Collaborators for a fetch that always yields body text "B" and HTML
"HB", with a notifier whose send always raises. -/
def envSendFails : Env where
  hash := fun t => "#" ++ t
  fetch := fun _ => some ("B", "HB")
  diffFn := fun o n => o ++ "|" ++ n
  sendOk := fun _ _ => false

/-- Collaborators for two targets "ua" and "ub", both of whose pages
changed; the notifier raises exactly on the message for label "A". -/
def envNotifyFail : Env where
  hash := fun t => "#" ++ t
  fetch := fun u =>
    if u = "ua" then some ("p", "Hp")
    else if u = "ub" then some ("q", "Hq")
    else none
  diffFn := fun o n => o ++ "|" ++ n
  sendOk := fun l _ => l != "A"

/-- Collaborators whose fetch always fails (models `fetch_page_data`
returning `(None, None)` after catching an exception). -/
def envFetchFail : Env where
  hash := fun t => "#" ++ t
  fetch := fun _ => none
  diffFn := fun o n => o ++ "|" ++ n
  sendOk := fun _ _ => true

/-- Collaborators whose fetch succeeds but returns an empty rendered body
text together with non-empty HTML. -/
def envEmptyText : Env where
  hash := fun t => "#" ++ t
  fetch := fun _ => some ("", "HB")
  diffFn := fun o n => o ++ "|" ++ n
  sendOk := fun _ _ => true

/-! Basic lemmas about the dict operations. -/

/-- Reading back the key just written. -/
theorem getv_setk_self (m : SMap) (k v : String) :
    getv (setk m k v) k = some v := by
  induction m with
  | nil => simp [getv, setk]
  | cons p rest ih =>
    obtain ⟨k', v'⟩ := p
    by_cases h : k' = k
    · subst h; simp [getv, setk]
    · simp [getv, setk, h, ih]

/-- Writing one key leaves every other key's value unchanged. -/
theorem getv_setk_ne (m : SMap) {k' k : String} (h : k' ≠ k) (v : String) :
    getv (setk m k' v) k = getv m k := by
  induction m with
  | nil => simp [getv, setk, h]
  | cons p rest ih =>
    obtain ⟨k₀, v₀⟩ := p
    by_cases h0 : k₀ = k'
    · subst h0; simp [getv, setk, h]
    · simp [getv, setk, h0, ih]

/-- Rewriting a key with the value it already holds is a no-op. -/
theorem setk_getv_self (m : SMap) {k v : String} (h : getv m k = some v) :
    setk m k v = m := by
  induction m with
  | nil => simp [getv] at h
  | cons p rest ih =>
    obtain ⟨k₀, v₀⟩ := p
    by_cases h0 : k₀ = k
    · subst h0
      have hv : v₀ = v := by simpa [getv] using h
      subst hv
      simp [setk]
    · simp only [getv, if_neg h0] at h
      simp [setk, h0, ih h]

/-! Structural lemmas about the sweep loop. -/

/-- Processing a concatenated target list is running the first part and, if
it did not abort, continuing with the second from the reached state. -/
theorem sweepLoop_append (env : Env) (a b : List (String × String)) :
    ∀ hashes htmls sent diffs,
      sweepLoop env (a ++ b) hashes htmls sent diffs =
        match sweepLoop env a hashes htmls sent diffs with
        | .ok r => sweepLoop env b r.hashes r.htmls r.sent r.diffs
        | .err s d => .err s d := by
  induction a with
  | nil =>
    intro hashes htmls sent diffs
    simp only [List.nil_append, sweepLoop]
  | cons t rest ih =>
    obtain ⟨label, url⟩ := t
    intro hashes htmls sent diffs
    cases hfetch : env.fetch url with
    | none =>
      simp only [List.cons_append, sweepLoop, hfetch]
      exact ih hashes htmls sent diffs
    | some p =>
      obtain ⟨text, html⟩ := p
      by_cases hempty : text = "" ∨ html = ""
      · simp only [List.cons_append, sweepLoop, hfetch, if_pos hempty]
        exact ih hashes htmls sent diffs
      · by_cases hch : some (env.hash text) ≠ getv hashes label
        · by_cases hsend : env.sendOk label url = true
          · simp only [List.cons_append, sweepLoop, hfetch, if_neg hempty,
              if_pos hch, hsend, if_true]
            exact ih ..
          · simp only [List.cons_append, sweepLoop, hfetch, if_neg hempty,
              if_pos hch, if_neg hsend]
        · simp only [List.cons_append, sweepLoop, hfetch, if_neg hempty,
            if_neg hch]
          exact ih ..

/-- When every notification send succeeds, the sweep loop never aborts. -/
theorem sweepLoop_ok_of_sendOk (env : Env)
    (hs : ∀ l u, env.sendOk l u = true) :
    ∀ (ts : List (String × String)) hashes htmls sent diffs,
      ∃ r, sweepLoop env ts hashes htmls sent diffs = .ok r := by
  intro ts
  induction ts with
  | nil =>
    intro hashes htmls sent diffs
    exact ⟨⟨hashes, htmls, sent, diffs⟩, rfl⟩
  | cons t rest ih =>
    obtain ⟨label, url⟩ := t
    intro hashes htmls sent diffs
    cases hfetch : env.fetch url with
    | none =>
      simpa only [sweepLoop, hfetch] using ih hashes htmls sent diffs
    | some p =>
      obtain ⟨text, html⟩ := p
      by_cases hempty : text = "" ∨ html = ""
      · simpa only [sweepLoop, hfetch, if_pos hempty] using
          ih hashes htmls sent diffs
      · by_cases hch : some (env.hash text) ≠ getv hashes label
        · simpa only [sweepLoop, hfetch, if_neg hempty, if_pos hch,
            hs label url, if_true] using ih ..
        · simpa only [sweepLoop, hfetch, if_neg hempty, if_neg hch] using ih ..

/-- Frame property: a completed sweep of targets none of which is labelled
`L` neither changes the stored hash of `L` nor sends a notification whose
label is `L`. -/
theorem sweepLoop_frame (env : Env) (L : String) :
    ∀ (ts : List (String × String)), L ∉ ts.map Prod.fst →
    ∀ hashes htmls sent diffs r,
      sweepLoop env ts hashes htmls sent diffs = .ok r →
      getv r.hashes L = getv hashes L ∧
        r.sent.countP (fun q => decide (q.1 = L)) =
          sent.countP (fun q => decide (q.1 = L)) := by
  intro ts
  induction ts with
  | nil =>
    intro _ hashes htmls sent diffs r hok
    simp only [sweepLoop] at hok
    cases hok
    exact ⟨rfl, rfl⟩
  | cons t rest ih =>
    obtain ⟨label, url⟩ := t
    intro hmem hashes htmls sent diffs r hok
    simp only [List.map_cons, List.mem_cons] at hmem
    push_neg at hmem
    obtain ⟨hlab, hrest⟩ := hmem
    cases hfetch : env.fetch url with
    | none =>
      simp only [sweepLoop, hfetch] at hok
      exact ih hrest hashes htmls sent diffs r hok
    | some p =>
      obtain ⟨text, html⟩ := p
      by_cases hempty : text = "" ∨ html = ""
      · simp only [sweepLoop, hfetch, if_pos hempty] at hok
        exact ih hrest hashes htmls sent diffs r hok
      · by_cases hch : some (env.hash text) ≠ getv hashes label
        · by_cases hsend : env.sendOk label url = true
          · simp only [sweepLoop, hfetch, if_neg hempty, if_pos hch,
              hsend, if_true] at hok
            obtain ⟨ha, hc⟩ := ih hrest _ _ _ _ r hok
            refine ⟨?_, ?_⟩
            · rw [ha, getv_setk_ne _ (Ne.symm hlab)]
            · rw [hc]
              simp [List.countP_append, List.countP_cons, Ne.symm hlab]
          · simp only [sweepLoop, hfetch, if_neg hempty, if_pos hch,
              if_neg hsend] at hok
            cases hok
        · simp only [sweepLoop, hfetch, if_neg hempty, if_neg hch] at hok
          obtain ⟨ha, hc⟩ := ih hrest _ _ _ _ r hok
          exact ⟨by rw [ha, getv_setk_ne _ (Ne.symm hlab)], hc⟩

/-- Notifications already sent are still in the final sent list of a
completed sweep. -/
theorem sweepLoop_sent_mono (env : Env) :
    ∀ (ts : List (String × String)) hashes htmls sent diffs r,
      sweepLoop env ts hashes htmls sent diffs = .ok r →
      ∀ x, x ∈ sent → x ∈ r.sent := by
  intro ts
  induction ts with
  | nil =>
    intro hashes htmls sent diffs r hok
    simp only [sweepLoop] at hok
    cases hok
    exact fun x hx => hx
  | cons t rest ih =>
    obtain ⟨label, url⟩ := t
    intro hashes htmls sent diffs r hok
    cases hfetch : env.fetch url with
    | none =>
      simp only [sweepLoop, hfetch] at hok
      exact ih hashes htmls sent diffs r hok
    | some p =>
      obtain ⟨text, html⟩ := p
      by_cases hempty : text = "" ∨ html = ""
      · simp only [sweepLoop, hfetch, if_pos hempty] at hok
        exact ih hashes htmls sent diffs r hok
      · by_cases hch : some (env.hash text) ≠ getv hashes label
        · by_cases hsend : env.sendOk label url = true
          · simp only [sweepLoop, hfetch, if_neg hempty, if_pos hch,
              hsend, if_true] at hok
            intro x hx
            exact ih _ _ _ _ r hok x (List.mem_append_left _ hx)
          · simp only [sweepLoop, hfetch, if_neg hempty, if_pos hch,
              if_neg hsend] at hok
            cases hok
        · simp only [sweepLoop, hfetch, if_neg hempty, if_neg hch] at hok
          exact ih _ _ _ _ r hok

/-- A target whose fetch fails, or returns falsy text or html, is skipped:
the sweep behaves exactly as if the target were absent from the list. -/
theorem sweepLoop_skip_head (env : Env) {label url : String}
    (hu : env.fetch url = none ∨
      ∃ t m, env.fetch url = some (t, m) ∧ (t = "" ∨ m = "")) :
    ∀ (post : List (String × String)) hashes htmls sent diffs,
      sweepLoop env ((label, url) :: post) hashes htmls sent diffs =
        sweepLoop env post hashes htmls sent diffs := by
  intro post hashes htmls sent diffs
  rcases hu with hnone | ⟨t, m, hfetch, hempty⟩
  · simp only [sweepLoop, hnone]
  · simp only [sweepLoop, hfetch, if_pos hempty]

/-- Skipped targets are invisible at any position in the sweep. -/
theorem sweepLoop_skip_mid (env : Env) {label url : String}
    (hu : env.fetch url = none ∨
      ∃ t m, env.fetch url = some (t, m) ∧ (t = "" ∨ m = "")) :
    ∀ (pre post : List (String × String)) hashes htmls sent diffs,
      sweepLoop env (pre ++ (label, url) :: post) hashes htmls sent diffs =
        sweepLoop env (pre ++ post) hashes htmls sent diffs := by
  intro pre post hashes htmls sent diffs
  rw [sweepLoop_append, sweepLoop_append]
  cases sweepLoop env pre hashes htmls sent diffs with
  | ok r => exact sweepLoop_skip_head env hu post r.hashes r.htmls r.sent r.diffs
  | err s d => rfl

/-! Claim C6: corrupt-store recovery. -/

/-- C6 counterexample: `load_json` on a corrupt file returns the empty
mapping but prints nothing at all — the message component of the result is
empty, so no reportable warning is logged, contrary to the claim. The bare
`except: return {}` in main.py lines 28-31 swallows the parse error
silently. -/
theorem load_json_corrupt_silent : (load_json .corrupt).2 = [] := rfl

/-- C6 amended: loading a missing or corrupt persisted file yields the
empty mapping without raising and without logging any warning; loading a
valid file yields its contents. Startup never fails on a corrupt store,
but no warning is reported either. -/
theorem load_json_recovery :
    load_json .corrupt = (([] : SMap), ([] : List String)) ∧
    load_json .missing = (([] : SMap), ([] : List String)) ∧
    ∀ d : SMap, load_json (.valid d) = (d, ([] : List String)) :=
  ⟨rfl, rfl, fun _ => rfl⟩

/-! Claim C7: atomicity of the persisted-file rewrite. -/

/-- C7 counterexample: `save_json` opens the existing file with mode "w",
truncating it in place, and only then dumps the new JSON. A crash between
the truncating open and the completed dump (crash point 1) leaves a file
that holds neither the old record `("L", "#A")` nor the new record
`("L", "#B")`: it is corrupt and loads back as the empty mapping. So a
crash immediately after a put can lose both records, contradicting the
write-new-then-replace discipline the claim asserts. -/
theorem save_json_crash_loses_both :
    save_json_crash (.valid [("L", "#A")]) [("L", "#B")] 1 = .corrupt ∧
    (load_json (save_json_crash (.valid [("L", "#A")]) [("L", "#B")] 1)).1
      = [] :=
  ⟨rfl, rfl⟩

/-- C7 amended: `save_json` rewrites the persisted file in place
(truncate, then dump); a crash before the open leaves the old content, a
crash between the truncating open and the completed dump leaves a corrupt
file that subsequently loads as the empty store, and after the dump the
file holds the new mapping. The write is therefore not atomic. -/
theorem save_json_crash_states (oldFile : FileState) (data : SMap) :
    save_json_crash oldFile data 0 = oldFile ∧
    save_json_crash oldFile data 1 = .corrupt ∧
    (load_json (save_json_crash oldFile data 1)).1 = [] ∧
    ∀ k : Nat, save_json_crash oldFile data (k + 2) = .valid data :=
  ⟨rfl, rfl, rfl, fun _ => rfl⟩

/-! Claim C2: baseline fetches must not notify. -/

/-- C2 failing input, evaluated: label "L" is registered with url "u" but
no fingerprint record exists (empty hash store, e.g. after a corrupt
hash-file recovery or a crash between the `save_json` calls of `add`).
The sweep fetches content "A", and because `new_hash != old_hash` is true
when `old_hash` is `None`, it takes the change branch and sends a
notification for ("L", "u") — the claim requires that a fetch performed
with no fingerprint record present never emits a notification. The
baseline fingerprint and snapshot are stored nonetheless. -/
theorem baseline_sweep_notifies :
    check_all_urls envBaseline (.valid [("L", "u")]) (.valid []) (.valid [])
      = ⟨.valid [("L", "#A")], .valid [("L", "HA")], [("L", "u")], true⟩ := by
  decide

/-! Claim C4: notifier failure must not block fingerprint persistence. -/

/-- C4 failing input, evaluated: label "L" has stored fingerprint "#A",
the fetch returns changed content "B" (digest "#B" ≠ "#A"), and the
notifier's send raises. The exception propagates out of the sweep loop
before the `save_json` calls, so the hash file still holds the old
fingerprint "#A" after the sweep: the real, detected change was not
persisted, contradicting the claim that a failed notification does not
prevent the durable fingerprint update. -/
theorem notifier_failure_blocks_persistence :
    check_all_urls envSendFails (.valid [("L", "u")])
        (.valid [("L", "#A")]) (.valid [("L", "HA")])
      = ⟨.valid [("L", "#A")], .valid [("L", "HA")], [], false⟩ ∧
    envSendFails.hash "B" ≠ "#A" := by
  decide

/-! Claim C3: per-target failure isolation. -/

/-- C3 counterexample: two targets, both of whose pages changed. The
notifier raises on target "A"'s message; the sweep loop has no try/except,
so the exception aborts the whole sweep: target "B" — fetchable, changed
(digest "#q" differs from its stored "#y"), and with a working notifier —
is never processed, its fingerprint is not updated (the hash file is
untouched because the final `save_json` calls are never reached), and no
notification at all is sent. A notifier error in one target's pipeline
thus does prevent the remaining targets of the sweep from being
processed, contrary to the claim. -/
theorem notifier_error_aborts_sweep :
    check_all_urls envNotifyFail (.valid [("A", "ua"), ("B", "ub")])
        (.valid [("A", "#x"), ("B", "#y")])
        (.valid [("A", "HA0"), ("B", "HB0")])
      = ⟨.valid [("A", "#x"), ("B", "#y")],
         .valid [("A", "HA0"), ("B", "HB0")], [], false⟩ ∧
    envNotifyFail.fetch "ub" = some ("q", "Hq") ∧
    envNotifyFail.hash "q" ≠ "#y" ∧
    envNotifyFail.sendOk "B" "ub" = true := by
  decide

/-- C3 amended: only fetch failures are isolated. `fetch_page_data`
catches every exception and returns `(None, None)`, so a target whose
fetch fails is skipped and the remaining targets of the sweep are
processed exactly as if the failed target were absent; a diff-production
or notifier error, by contrast, is not caught and aborts the remainder of
the sweep (the next scheduled sweep is still run by the external job
queue). This theorem proves the fetch half. -/
theorem fetch_failure_isolated (env : Env) {label url : String}
    (hfail : env.fetch url = none)
    (pre post : List (String × String)) (hashes htmls : SMap)
    (sent diffs : List (String × String)) :
    sweepLoop env (pre ++ (label, url) :: post) hashes htmls sent diffs =
      sweepLoop env (pre ++ post) hashes htmls sent diffs :=
  sweepLoop_skip_mid env (.inl hfail) pre post hashes htmls sent diffs

/-- C3 witness: the fetch-isolation theorem applied at a concrete input —
a failing fetch for label "L" between two other targets. -/
theorem fetch_failure_isolated_witness :
    sweepLoop envFetchFail [("A", "ua"), ("L", "u"), ("B", "ub")]
        [("A", "#x")] [] [] [] =
      sweepLoop envFetchFail [("A", "ua"), ("B", "ub")] [("A", "#x")] [] [] [] :=
  fetch_failure_isolated envFetchFail rfl [("A", "ua")] [("B", "ub")]
    [("A", "#x")] [] [] []

/-! Claim C10: falsy fetched content is skipped like a fetch failure. -/

/-- C10: a target whose fetch succeeds but returns an empty rendered body
text or an empty HTML string fails the `if not text or not html` guard and
is skipped with `continue`, exactly like a failed fetch: the sweep behaves
as if the target were absent, so the target's fingerprint and snapshot
entries are left unchanged, no notification is sent for it, and such a
page can never establish or update a fingerprint via the sweep. -/
theorem empty_content_skipped (env : Env) {label url text html : String}
    (hfetch : env.fetch url = some (text, html))
    (hempty : text = "" ∨ html = "")
    (pre post : List (String × String)) (hashes htmls : SMap)
    (sent diffs : List (String × String)) :
    sweepLoop env (pre ++ (label, url) :: post) hashes htmls sent diffs =
      sweepLoop env (pre ++ post) hashes htmls sent diffs :=
  sweepLoop_skip_mid env (.inr ⟨text, html, hfetch, hempty⟩) pre post
    hashes htmls sent diffs

/-- C10 witness: the skip theorem applied at a concrete input — a fetch
returning empty body text with non-empty HTML for label "L". -/
theorem empty_content_skipped_witness :
    sweepLoop envEmptyText [("L", "u")] [("L", "#A")] [("L", "HA")] [] [] =
      sweepLoop envEmptyText [] [("L", "#A")] [("L", "HA")] [] [] :=
  empty_content_skipped envEmptyText rfl (Or.inl rfl) [] [] [("L", "#A")]
    [("L", "HA")] [] []

/-! Claim C8: diff production on the baseline transition. -/

/-- C8 counterexample: label "L" undergoes a change with no previous
snapshot stored (empty snapshot store). The sweep does not short-circuit:
`htmls.get(label, "")` defaults to the empty string, the diff text is
computed from "" versus the full new HTML "HB", and a diff artifact
("L", its text) is produced — the diffs component of the result is the
non-empty list `[("L", "|HB")]`, where `"|HB"` is exactly
`envChange.diffFn "" "HB"`, contradicting the claim that no diff artifact
is produced on the baseline transition. -/
theorem baseline_diff_artifact_produced :
    sweepLoop envChange [("L", "u")] [] [] [] [] =
      .ok ⟨[("L", "#B")], [("L", "HB")], [("L", "u")], [("L", "|HB")]⟩ ∧
    envChange.diffFn "" "HB" = "|HB" := by
  decide

/-- C8 amended: for a label undergoing a change with no stored snapshot,
the sweep produces a diff artifact computed from the empty string (the
`htmls.get(label, "")` default) against the full new content — an
empty-vs-full diff — rather than short-circuiting to no diff. -/
theorem baseline_diff_empty_vs_full (env : Env) {label url text html : String}
    (hfetch : env.fetch url = some (text, html))
    (htext : text ≠ "") (hhtml : html ≠ "")
    {hashes htmls : SMap}
    (hsnap : getv htmls label = none)
    (hch : some (env.hash text) ≠ getv hashes label)
    (hsend : env.sendOk label url = true)
    (rest : List (String × String)) (sent diffs : List (String × String)) :
    sweepLoop env ((label, url) :: rest) hashes htmls sent diffs =
      sweepLoop env rest (setk hashes label (env.hash text))
        (setk htmls label html) (sent ++ [(label, url)])
        (diffs ++ [(label, env.diffFn "" html)]) := by
  have hempty : ¬(text = "" ∨ html = "") := by
    rintro (h | h)
    · exact htext h
    · exact hhtml h
  simp only [sweepLoop, hfetch, if_neg hempty, if_pos hch, hsend, if_true,
    hsnap, Option.getD_none]

/-- C8 witness: the amended theorem applied at a concrete input — label
"M" with a stale fingerprint "#old", no snapshot, changed content. -/
theorem baseline_diff_empty_vs_full_witness :
    sweepLoop envChange [("M", "w")] [("M", "#old")] [] [] [] =
      sweepLoop envChange [] (setk [("M", "#old")] "M" (envChange.hash "B"))
        (setk [] "M" "HB") [("M", "w")] [("M", envChange.diffFn "" "HB")] :=
  @baseline_diff_empty_vs_full envChange "M" "w" "B" "HB" rfl (by decide)
    (by decide) [("M", "#old")] [] rfl (by decide) rfl [] [] []

/-! Claim C9: duplicate label rejection. -/

/-- C9: an `add` whose label is already registered replies "Label already
exists." (the `DuplicateLabelError` of the spec) and returns before any
fetch or mutation: all three persisted files are unchanged and the
registry still maps the label to its original url. -/
theorem add_duplicate_rejected (env : Env) {label url₀ : String}
    (url' : String) (rest : List String)
    (dataFile hashFile htmlFile : FileState)
    (hdup : getv (load_json dataFile).1 label = some url₀) :
    add env (label :: url' :: rest) dataFile hashFile htmlFile =
      ⟨.duplicate, dataFile, hashFile, htmlFile⟩ ∧
    getv (load_json ((add env (label :: url' :: rest) dataFile hashFile
        htmlFile).dataFile)).1 label = some url₀ := by
  have h1 : add env (label :: url' :: rest) dataFile hashFile htmlFile =
      ⟨.duplicate, dataFile, hashFile, htmlFile⟩ := by
    simp only [add, hdup, Option.isSome_some, if_true]
  exact ⟨h1, by rw [h1]; exact hdup⟩

/-- C9 witness: the duplicate-rejection theorem applied at a concrete
input — re-adding label "L" (registered at "u1") with url "u2". -/
theorem add_duplicate_rejected_witness :
    add envChange ["L", "u2"] (.valid [("L", "u1")]) (.valid [("L", "#A")])
        (.valid [("L", "HA")]) =
      ⟨.duplicate, .valid [("L", "u1")], .valid [("L", "#A")],
        .valid [("L", "HA")]⟩ ∧
    getv (load_json ((add envChange ["L", "u2"] (.valid [("L", "u1")])
        (.valid [("L", "#A")]) (.valid [("L", "HA")])).dataFile)).1 "L" =
      some "u1" :=
  add_duplicate_rejected envChange "u2" [] (.valid [("L", "u1")])
    (.valid [("L", "#A")]) (.valid [("L", "HA")]) (by decide)

/-! Claim C5: idempotence under unchanged content. -/

/-- C5: two consecutive sweep fetches of the same target returning
byte-identical content: after the first, the store maps the label to the
digest of that content (exactly one stored fingerprint for the label);
the second sweep leaves the hash and snapshot stores entirely unchanged
and emits zero notifications, because `new_hash != old_hash` is false and
the unconditional `hashes[label] = new_hash` rewrites the same value. -/
theorem idempotent_second_fetch (env : Env) {label url text html : String}
    (hfetch : env.fetch url = some (text, html))
    (htext : text ≠ "") (hhtml : html ≠ "")
    (hsend : env.sendOk label url = true)
    (hashes htmls : SMap) :
    ∃ r₁, sweepLoop env [(label, url)] hashes htmls [] [] = .ok r₁ ∧
      getv r₁.hashes label = some (env.hash text) ∧
      sweepLoop env [(label, url)] r₁.hashes r₁.htmls [] [] =
        .ok ⟨r₁.hashes, r₁.htmls, [], []⟩ := by
  have hempty : ¬(text = "" ∨ html = "") := by
    rintro (h | h)
    · exact htext h
    · exact hhtml h
  have second : ∀ hs hm : SMap, getv hs label = some (env.hash text) →
      sweepLoop env [(label, url)] hs hm [] [] = .ok ⟨hs, hm, [], []⟩ := by
    intro hs hm hg
    have hnch : ¬(some (env.hash text) ≠ getv hs label) := by simp [hg]
    simp only [sweepLoop, hfetch, if_neg hempty, if_neg hnch]
    rw [setk_getv_self _ hg]
  by_cases hch : some (env.hash text) ≠ getv hashes label
  · refine ⟨⟨setk hashes label (env.hash text), setk htmls label html,
      [(label, url)],
      [(label, env.diffFn ((getv htmls label).getD "") html)]⟩, ?_, ?_, ?_⟩
    · simp only [sweepLoop, hfetch, if_neg hempty, if_pos hch, hsend,
        if_true, List.nil_append]
    · exact getv_setk_self ..
    · exact second _ _ (getv_setk_self ..)
  · rw [not_not] at hch
    have hg : getv hashes label = some (env.hash text) := hch.symm
    refine ⟨⟨hashes, htmls, [], []⟩, second hashes htmls hg, hg,
      second hashes htmls hg⟩

/-- C5 witness: the idempotence theorem applied at a concrete input —
label "L", content ("A", "HA") on both sweeps. -/
theorem idempotent_second_fetch_witness :
    ∃ r₁, sweepLoop envBaseline [("L", "u")] [("L", "#A")] [("L", "HA")] [] []
        = .ok r₁ ∧
      getv r₁.hashes "L" = some (envBaseline.hash "A") ∧
      sweepLoop envBaseline [("L", "u")] r₁.hashes r₁.htmls [] [] =
        .ok ⟨r₁.hashes, r₁.htmls, [], []⟩ :=
  idempotent_second_fetch envBaseline rfl (by decide) (by decide) rfl
    [("L", "#A")] [("L", "HA")]

/-! Claim C1: change detection updates the store and notifies once. -/

/-- C1: in a sweep whose registry has distinct labels and whose notifier
sends succeed, a target (label, url) with stored fingerprint F whose fetch
returns non-falsy content with digest different from F ends with the
stored fingerprint for the label updated to the new digest — and persisted
by the `save_json` at the end of `check_all_urls` — and with exactly one
notification for that label, namely the one carrying (label, url), in the
sweep's sent list. -/
theorem change_detected_updates_and_notifies_once (env : Env)
    {urls : List (String × String)} {label url F text html : String}
    {hashes htmls : SMap}
    (hsendall : ∀ l u, env.sendOk l u = true)
    (hnodup : (urls.map Prod.fst).Nodup)
    (hmem : (label, url) ∈ urls)
    (hstored : getv hashes label = some F)
    (hfetch : env.fetch url = some (text, html))
    (htext : text ≠ "") (hhtml : html ≠ "")
    (hdiff : env.hash text ≠ F) :
    ∃ r, sweepLoop env urls hashes htmls [] [] = .ok r ∧
      check_all_urls env (.valid urls) (.valid hashes) (.valid htmls) =
        ⟨save_json r.hashes, save_json r.htmls, r.sent, true⟩ ∧
      getv r.hashes label = some (env.hash text) ∧
      r.sent.countP (fun q => decide (q.1 = label)) = 1 ∧
      (label, url) ∈ r.sent := by
  obtain ⟨pre, post, rfl⟩ := List.append_of_mem hmem
  rw [List.map_append, List.map_cons, List.nodup_append] at hnodup
  obtain ⟨_, hnd2, hdisj⟩ := hnodup
  have hpost : label ∉ post.map Prod.fst := (List.nodup_cons.mp hnd2).1
  have hpre : label ∉ pre.map Prod.fst := fun hin =>
    hdisj hin (List.mem_cons_self _ _)
  have hempty : ¬(text = "" ∨ html = "") := by
    rintro (h | h)
    · exact htext h
    · exact hhtml h
  obtain ⟨r₁, hr₁⟩ := sweepLoop_ok_of_sendOk env hsendall pre hashes htmls [] []
  obtain ⟨ha₁, hc₁⟩ := sweepLoop_frame env label pre hpre hashes htmls [] [] r₁ hr₁
  have hch : some (env.hash text) ≠ getv r₁.hashes label := by
    rw [ha₁, hstored]
    simp only [ne_eq, Option.some.injEq]
    exact hdiff
  obtain ⟨r, hr⟩ := sweepLoop_ok_of_sendOk env hsendall post
    (setk r₁.hashes label (env.hash text)) (setk r₁.htmls label html)
    (r₁.sent ++ [(label, url)])
    (r₁.diffs ++ [(label, env.diffFn ((getv r₁.htmls label).getD "") html)])
  have hstep : sweepLoop env ((label, url) :: post) r₁.hashes r₁.htmls
      r₁.sent r₁.diffs = .ok r := by
    simp only [sweepLoop, hfetch, if_neg hempty, if_pos hch,
      hsendall label url, if_true]
    exact hr
  have hall : sweepLoop env (pre ++ (label, url) :: post) hashes htmls [] []
      = .ok r := by
    rw [sweepLoop_append, hr₁]
    exact hstep
  obtain ⟨ha₂, hc₂⟩ := sweepLoop_frame env label post hpost _ _ _ _ r hr
  refine ⟨r, hall, ?_, ?_, ?_, ?_⟩
  · simp only [check_all_urls, load_json, hall]
  · rw [ha₂, getv_setk_self]
  · rw [hc₂, List.countP_append, hc₁]
    simp [List.countP_cons]
  · exact sweepLoop_sent_mono env post _ _ _ _ r hr (label, url)
      (List.mem_append_right _ (by simp))

/-- C1 witness: the change-detection theorem applied at a concrete input —
registry [("L", "u")], stored fingerprint "#A" for "L", fetch returning
("B", "HB") with digest "#B" ≠ "#A". -/
theorem change_detected_updates_and_notifies_once_witness :
    ∃ r, sweepLoop envChange [("L", "u")] [("L", "#A")] [("L", "HA")] [] []
        = .ok r ∧
      check_all_urls envChange (.valid [("L", "u")]) (.valid [("L", "#A")])
          (.valid [("L", "HA")]) =
        ⟨save_json r.hashes, save_json r.htmls, r.sent, true⟩ ∧
      getv r.hashes "L" = some (envChange.hash "B") ∧
      r.sent.countP (fun q => decide (q.1 = "L")) = 1 ∧
      ("L", "u") ∈ r.sent :=
  change_detected_updates_and_notifies_once envChange
    (fun _ _ => rfl) (by decide) (by decide) rfl rfl (by decide) (by decide)
    (by decide)

end UrlMonitor
